import Mathlib

/-!
Verification of the user-management CRUD core of the
React-Golang-Postgres-UserManagement-CRUD repository.

The Go handlers (`src/backend/handlers/user_handlers.go`, the auth handlers
and `main.go` route registration) are shallowly embedded here.  The backing
Postgres table is modelled as a list of rows together with the `SERIAL`
id counter; the table's `UNIQUE` constraint on `email` is reflected in
`insertUser`.  Physical time is a `Nat` argument (`now`) supplied to the
operations, mirroring the `time.Now()` calls in the handlers.  Bcrypt is
kept abstract: `GenerateFromPassword` becomes an arbitrary function
`hash : String → String` and `CompareHashAndPassword` an arbitrary
predicate `check : String → String → Bool` taking the stored hash and the
plaintext.
-/

/-- The `users` table row, after `models.User` (`src/backend/models/user.go`).
`password` holds the bcrypt hash, `age` is the nullable `*int` column. -/
structure User where
  id : Nat
  name : String
  email : String
  password : String
  age : Option Int
  isActive : Bool
  createdAt : Nat
  updatedAt : Nat
deriving Repr, DecidableEq

/-- `models.UserResponse`: the outward-facing projection.  It has no
password field at all. -/
structure UserResponse where
  id : Nat
  name : String
  email : String
  age : Option Int
  isActive : Bool
  createdAt : Nat
  updatedAt : Nat
deriving Repr, DecidableEq

/-- `models.CreateUserRequest`. -/
structure CreateUserRequest where
  name : String
  email : String
  password : String
  age : Option Int
  isActive : Option Bool
deriving Repr, DecidableEq

/-- `models.UpdateUserRequest`: all four fields optional; note there is no
password field. -/
structure UpdateUserRequest where
  name : Option String
  email : Option String
  age : Option Int
  isActive : Option Bool
deriving Repr, DecidableEq

/-- `models.LoginRequest`. -/
structure LoginRequest where
  email : String
  password : String
deriving Repr, DecidableEq

/-- `models.SignupRequest` (no `isActive` field). -/
structure SignupRequest where
  name : String
  email : String
  password : String
  age : Option Int
deriving Repr, DecidableEq

/-- `User.ToUserResponse` from `src/backend/models/user.go`. -/
def User.toUserResponse (u : User) : UserResponse :=
  { id := u.id
    name := u.name
    email := u.email
    age := u.age
    isActive := u.isActive
    createdAt := u.createdAt
    updatedAt := u.updatedAt }

/-- The wire-level outcomes a handler can produce (status plus payload),
after `models.APIResponse` together with the HTTP status used. -/
inductive Resp where
  | created (d : UserResponse)
  | ok (d : UserResponse)
  | okList (ds : List UserResponse)
  | okMsg (m : String)
  | unauthorized (m : String)
  | notFound (m : String)
  | conflict (m : String)
  | serverError (m : String)
deriving Repr, DecidableEq

/-- The `users` table: its rows in insertion order plus the `SERIAL`
id sequence value. -/
structure Db where
  rows : List User
  nextId : Nat
deriving Repr, DecidableEq

/-- `SELECT ... FROM users WHERE email = $1` (first matching row). -/
def selectByEmail (db : Db) (email : String) : Option User :=
  db.rows.find? (fun r => r.email == email)

/-- `SELECT ... FROM users WHERE id = $1` (first matching row). -/
def selectById (db : Db) (id : Nat) : Option User :=
  db.rows.find? (fun r => r.id == id)

/-- Storage-layer error: the `UNIQUE` constraint on `email`. -/
inductive SqlErr where
  | uniqueViolation
deriving Repr, DecidableEq

/-- `INSERT INTO users ... RETURNING ...`: the storage layer atomically
rejects a duplicate email (the table's `UNIQUE` index), assigns the
`SERIAL` id and stores `created_at = updated_at = now`. -/
def insertUser (db : Db) (name email password : String) (age : Option Int)
    (isActive : Bool) (now : Nat) : Except SqlErr (User × Db) :=
  if (selectByEmail db email).isSome then
    Except.error SqlErr.uniqueViolation
  else
    let u : User :=
      { id := db.nextId, name := name, email := email, password := password
        age := age, isActive := isActive, createdAt := now, updatedAt := now }
    Except.ok (u, { rows := db.rows ++ [u], nextId := db.nextId + 1 })

/-- `UPDATE users SET name, email, age, is_active, updated_at WHERE id`:
rewrites every row whose id matches; the password column is not in the SET
list, so each rewritten row keeps its stored password. -/
def updateRow (db : Db) (id : Nat) (u : User) : Db :=
  { rows := db.rows.map (fun r => if r.id == id then { u with password := r.password } else r)
    nextId := db.nextId }

/-- `DELETE FROM users WHERE id = $1`. -/
def deleteRow (db : Db) (id : Nat) : Db :=
  { rows := db.rows.filter (fun r => !(r.id == id)), nextId := db.nextId }

/-- `CreateUserHandler` (`user_handlers.go` 25-90): app-level existence
pre-check, bcrypt hash, default `is_active := true`, insert, project. -/
def createUserHandler (db : Db) (hash : String → String)
    (req : CreateUserRequest) (now : Nat) : Resp × Db :=
  match selectByEmail db req.email with
  | some _ =>
      (Resp.conflict ("User with email " ++ req.email ++ " already exists"), db)
  | none =>
      let hashed := hash req.password
      let isActive := req.isActive.getD true
      match insertUser db req.name req.email hashed req.age isActive now with
      | Except.error _ => (Resp.serverError "Error creating user", db)
      | Except.ok (u, db') => (Resp.created u.toUserResponse, db')

/-- `SignupHandler` (auth handlers): identical to create but `is_active`
is always `true`. -/
def signupHandler (db : Db) (hash : String → String)
    (req : SignupRequest) (now : Nat) : Resp × Db :=
  match selectByEmail db req.email with
  | some _ =>
      (Resp.conflict ("User with email " ++ req.email ++ " already exists"), db)
  | none =>
      let hashed := hash req.password
      match insertUser db req.name req.email hashed req.age true now with
      | Except.error _ => (Resp.serverError "Error creating user", db)
      | Except.ok (u, db') => (Resp.created u.toUserResponse, db')

/-- `GetUserByIDHandler` (`user_handlers.go` 141-175). -/
def getUserByIdHandler (db : Db) (id : Nat) : Resp :=
  match selectById db id with
  | none => Resp.notFound ("User with ID " ++ toString id ++ " not found")
  | some u => Resp.ok u.toUserResponse

/-- `GetAllUsersHandler` (`user_handlers.go` 98-131):
`ORDER BY created_at DESC`, then project every row. -/
def getAllUsersHandler (db : Db) : Resp :=
  Resp.okList (((db.rows.mergeSort (fun a b => b.createdAt ≤ a.createdAt))).map
    User.toUserResponse)

/-- The field merge of `UpdateUserHandler` lines 248-261: overwrite exactly
the fields present in the request, refresh `updatedAt`. -/
def applyPatch (u : User) (req : UpdateUserRequest) (now : Nat) : User :=
  { u with
    name := req.name.getD u.name
    email := req.email.getD u.email
    age := match req.age with | some a => some a | none => u.age
    isActive := req.isActive.getD u.isActive
    updatedAt := now }

/-- `UpdateUserHandler` (`user_handlers.go` 189-282): load, advisory email
uniqueness pre-check when the email changes, merge present fields, write. -/
def updateUserHandler (db : Db) (id : Nat) (req : UpdateUserRequest)
    (now : Nat) : Resp × Db :=
  match selectById db id with
  | none => (Resp.notFound ("User with ID " ++ toString id ++ " not found"), db)
  | some existing =>
      match req.email with
      | some e =>
          if e ≠ existing.email ∧ (selectByEmail db e).isSome then
            (Resp.conflict ("Email " ++ e ++ " is already taken"), db)
          else
            let merged := applyPatch existing req now
            (Resp.ok merged.toUserResponse, updateRow db id merged)
      | none =>
          let merged := applyPatch existing req now
          (Resp.ok merged.toUserResponse, updateRow db id merged)

/-- `DeleteUserHandler` (`user_handlers.go` 292-333): existence check then
physical delete. -/
def deleteUserHandler (db : Db) (id : Nat) : Resp × Db :=
  match selectById db id with
  | none => (Resp.notFound ("User with ID " ++ toString id ++ " not found"), db)
  | some _ => (Resp.okMsg "User deleted successfully", deleteRow db id)

/-- `LoginHandler` (auth handlers): find by email; both "no such email"
and "wrong password" produce the very same 401 response. -/
def loginHandler (db : Db) (check : String → String → Bool)
    (req : LoginRequest) : Resp :=
  match selectByEmail db req.email with
  | none => Resp.unauthorized "Invalid credentials"
  | some u =>
      if check u.password req.password then Resp.ok u.toUserResponse
      else Resp.unauthorized "Invalid credentials"

/-- Route registration in `main.go`: `PUT /users/:id` is served by
`UpdateUserHandler`. -/
def putUserRoute : Db → Nat → UpdateUserRequest → Nat → Resp × Db :=
  updateUserHandler

/-- Route registration in `main.go`: `PATCH /users/:id` is served by
`UpdateUserHandler`. -/
def patchUserRoute : Db → Nat → UpdateUserRequest → Nat → Resp × Db :=
  updateUserHandler

/-- The row a successful `INSERT` produces for a create request (id from the
`SERIAL` sequence, defaulted `is_active`, both timestamps set to `now`). -/
def newUser (db : Db) (hash : String → String) (req : CreateUserRequest)
    (now : Nat) : User :=
  { id := db.nextId, name := req.name, email := req.email
    password := hash req.password, age := req.age
    isActive := req.isActive.getD true, createdAt := now, updatedAt := now }

/-- The row a successful `INSERT` produces for a signup request
(`is_active` forced to `true`). -/
def newSignupUser (db : Db) (hash : String → String) (req : SignupRequest)
    (now : Nat) : User :=
  { id := db.nextId, name := req.name, email := req.email
    password := hash req.password, age := req.age
    isActive := true, createdAt := now, updatedAt := now }

/-- Rewrite every stored password hash; used to state that outward-facing
data never depends on the password column. -/
def mapPasswords (f : String → String) (db : Db) : Db :=
  { rows := db.rows.map (fun r => { r with password := f r.password })
    nextId := db.nextId }

/-- Every stored id is below the `SERIAL` sequence value. -/
def idsBounded (db : Db) : Prop :=
  ∀ u ∈ db.rows, u.id < db.nextId

/-- No two rows share an id (`SERIAL PRIMARY KEY`). -/
def idsUnique (db : Db) : Prop :=
  db.rows.Pairwise (fun a b => a.id ≠ b.id)

/-- No two rows share an email (the table's `UNIQUE` constraint). -/
def emailsUnique (db : Db) : Prop :=
  db.rows.Pairwise (fun a b => a.email ≠ b.email)

/-- The well-formedness the schema guarantees. -/
def Wf (db : Db) : Prop :=
  idsBounded db ∧ idsUnique db ∧ emailsUnique db

instance (db : Db) : Decidable (idsBounded db) :=
  inferInstanceAs (Decidable (∀ u ∈ db.rows, u.id < db.nextId))

instance (db : Db) : Decidable (idsUnique db) :=
  inferInstanceAs (Decidable (db.rows.Pairwise (fun (a b : User) => a.id ≠ b.id)))

instance (db : Db) : Decidable (emailsUnique db) :=
  inferInstanceAs
    (Decidable (db.rows.Pairwise (fun (a b : User) => a.email ≠ b.email)))

instance (db : Db) : Decidable (Wf db) :=
  inferInstanceAs (Decidable (idsBounded db ∧ idsUnique db ∧ emailsUnique db))

/-- Timestamp sanity relative to the current clock value: each row has
`createdAt ≤ updatedAt` and was last touched no later than `clock`. -/
def timestampsOk (db : Db) (clock : Nat) : Prop :=
  ∀ u ∈ db.rows, u.createdAt ≤ u.updatedAt ∧ u.updatedAt ≤ clock

instance (db : Db) (clock : Nat) : Decidable (timestampsOk db clock) :=
  inferInstanceAs
    (Decidable (∀ u ∈ db.rows, u.createdAt ≤ u.updatedAt ∧ u.updatedAt ≤ clock))

/-!
Concurrency model for racing create requests.  A create handler performs two
atomic calls against the shared store: the app-level existence pre-check
(`SELECT id FROM users WHERE email = $1`) and the `INSERT` (which enforces
the unique index atomically).  The bcrypt hashing between them touches no
shared state.  A schedule interleaves the steps of two requests; `true`
schedules the next step of request A, `false` of request B.
-/

/-- Progress of one in-flight create request. -/
inductive TaskState where
  | ready
  | checked
  | finished (r : Resp)
deriving Repr, DecidableEq

/-- One atomic store call of `CreateUserHandler`: from `ready` the existence
pre-check (lines 35-50), from `checked` the `INSERT` (lines 69-84; a unique
violation surfaces as the 500 "Error creating user"). -/
def stepCreate (req : CreateUserRequest) (hash : String → String) (now : Nat)
    (db : Db) : TaskState → TaskState × Db
  | TaskState.ready =>
      match selectByEmail db req.email with
      | some _ =>
          (TaskState.finished
            (Resp.conflict ("User with email " ++ req.email ++ " already exists")), db)
      | none => (TaskState.checked, db)
  | TaskState.checked =>
      match insertUser db req.name req.email (hash req.password) req.age
          (req.isActive.getD true) now with
      | Except.error _ =>
          (TaskState.finished (Resp.serverError "Error creating user"), db)
      | Except.ok (u, db') =>
          (TaskState.finished (Resp.created u.toUserResponse), db')
  | TaskState.finished r => (TaskState.finished r, db)

/-- Joint state of the two racing requests and the shared table. -/
structure RaceState where
  db : Db
  a : TaskState
  b : TaskState
deriving Repr, DecidableEq

/-- Run an interleaving schedule of the two create requests. -/
def runSched (reqA reqB : CreateUserRequest) (hash : String → String)
    (nowA nowB : Nat) : List Bool → RaceState → RaceState
  | [], s => s
  | true :: rest, s =>
      let p := stepCreate reqA hash nowA s.db s.a
      runSched reqA reqB hash nowA nowB rest { db := p.2, a := p.1, b := s.b }
  | false :: rest, s =>
      let p := stepCreate reqB hash nowB s.db s.b
      runSched reqA reqB hash nowA nowB rest { db := p.2, a := s.a, b := p.1 }

/-- The six complete interleavings of two two-step create requests. -/
def raceSchedules : List (List Bool) :=
  [[true, true, false, false], [true, false, true, false],
   [true, false, false, true], [false, true, true, false],
   [false, true, false, true], [false, false, true, true]]

/-! Concrete fixtures used by witnesses and counterexamples. -/

/-- A sample stored row. -/
def exUser : User :=
  { id := 1, name := "Alice", email := "a@b.c", password := "H1"
    age := some 30, isActive := true, createdAt := 5, updatedAt := 5 }

/-- A sample table holding `exUser`. -/
def exDb : Db := { rows := [exUser], nextId := 2 }

/-- A sample bcrypt verifier: accepts exactly hash `"H1"` with plaintext
`"pw"`. -/
def exCheck : String → String → Bool :=
  fun h p => h == "H1" && p == "pw"

/-- A sample hash function. -/
def exHash : String → String := fun p => "h:" ++ p

/-- A sample create request racing against itself in the C3 scenario. -/
def raceReq : CreateUserRequest :=
  { name := "Bob", email := "x@y.z", password := "secret"
    age := none, isActive := none }

/-- A sample create request with an email not in `exDb`. -/
def eveReq : CreateUserRequest :=
  { name := "Eve", email := "e@f.g", password := "secret2"
    age := none, isActive := none }

/-- A sample create request whose email collides with `exUser`. -/
def dupEveReq : CreateUserRequest :=
  { name := "Eve", email := "a@b.c", password := "secret2"
    age := none, isActive := none }

/-- Rewrite one row's password hash. -/
def setPassword (f : String → String) (r : User) : User :=
  { r with password := f r.password }

/-- The sample patch of claim C4: only `age` is present. -/
def patch31 : UpdateUserRequest :=
  { name := none, email := none, age := some 31, isActive := none }

/-- Run a race of two create requests from idle on a given table. -/
def raceResult (db : Db) (hash : String → String)
    (reqA reqB : CreateUserRequest) (nowA nowB : Nat)
    (sched : List Bool) : RaceState :=
  runSched reqA reqB hash nowA nowB sched
    { db := db, a := TaskState.ready, b := TaskState.ready }

/-- Did the request finish with the 201 created response? -/
def createdOutcome : TaskState → Bool
  | TaskState.finished (Resp.created _) => true
  | _ => false

/-- Did the request finish with one of the two duplicate-email failures the
code can produce: the app-level 409 conflict, or the 500 "Error creating
user" raised when the INSERT hits the storage unique constraint? -/
def dupFailureOutcome (email : String) : TaskState → Bool
  | TaskState.finished (Resp.conflict m) =>
      m == "User with email " ++ email ++ " already exists"
  | TaskState.finished (Resp.serverError m) => m == "Error creating user"
  | _ => false

/-- Did the request finish with the 409 conflict specifically? -/
def conflictOutcome (email : String) : TaskState → Bool
  | TaskState.finished (Resp.conflict m) =>
      m == "User with email " ++ email ++ " already exists"
  | _ => false

/-! ### Store query lemmas -/

theorem selectByEmail_eq_none {db : Db} {e : String} :
    selectByEmail db e = none ↔ ∀ u ∈ db.rows, u.email ≠ e := by
  simp [selectByEmail, List.find?_eq_none]

theorem selectByEmail_mem {db : Db} {e : String} {u : User}
    (h : selectByEmail db e = some u) : u ∈ db.rows ∧ u.email = e := by
  unfold selectByEmail at h
  refine ⟨List.mem_of_find?_eq_some h, ?_⟩
  have h2 := List.find?_some h
  simpa using h2

theorem selectById_eq_none {db : Db} {i : Nat} :
    selectById db i = none ↔ ∀ u ∈ db.rows, u.id ≠ i := by
  simp [selectById, List.find?_eq_none]

theorem selectById_mem {db : Db} {i : Nat} {u : User}
    (h : selectById db i = some u) : u ∈ db.rows ∧ u.id = i := by
  unfold selectById at h
  refine ⟨List.mem_of_find?_eq_some h, ?_⟩
  have h2 := List.find?_some h
  simpa using h2

theorem find?_email_of_mem {l : List User} {u : User}
    (h : l.Pairwise (fun a b => a.email ≠ b.email)) (hu : u ∈ l) :
    l.find? (fun r => r.email == u.email) = some u := by
  induction l with
  | nil => cases hu
  | cons x xs ih =>
      rcases List.pairwise_cons.mp h with ⟨hx, hxs⟩
      rcases List.mem_cons.mp hu with rfl | hmem
      · simp [List.find?_cons]
      · have hne : (x.email == u.email) = false := by
          simpa using hx u hmem
        simp [List.find?_cons, hne, ih hxs hmem]

theorem selectByEmail_of_mem {db : Db} {u : User} (h : emailsUnique db)
    (hu : u ∈ db.rows) : selectByEmail db u.email = some u :=
  find?_email_of_mem h hu

theorem find?_id_of_mem {l : List User} {u : User}
    (h : l.Pairwise (fun a b => a.id ≠ b.id)) (hu : u ∈ l) :
    l.find? (fun r => r.id == u.id) = some u := by
  induction l with
  | nil => cases hu
  | cons x xs ih =>
      rcases List.pairwise_cons.mp h with ⟨hx, hxs⟩
      rcases List.mem_cons.mp hu with rfl | hmem
      · simp [List.find?_cons]
      · have hne : (x.id == u.id) = false := by
          simpa using hx u hmem
        simp [List.find?_cons, hne, ih hxs hmem]

theorem selectById_of_mem {db : Db} {u : User} (h : idsUnique db)
    (hu : u ∈ db.rows) : selectById db u.id = some u :=
  find?_id_of_mem h hu

theorem eq_of_selectById {db : Db} {i : Nat} {u v : User} (h : idsUnique db)
    (hv : selectById db i = some v) (hu : u ∈ db.rows) (hui : u.id = i) :
    u = v := by
  have h1 := selectById_of_mem h hu
  rw [hui, hv] at h1
  exact (Option.some_inj.mp h1).symm

theorem selectByEmail_snoc {rows : List User} {u : User} {n : Nat} {e : String} :
    selectByEmail { rows := rows ++ [u], nextId := n } e =
      (selectByEmail { rows := rows, nextId := n } e).or
        (if u.email == e then some u else none) := by
  simp only [selectByEmail, List.find?_append]
  cases h : u.email == e <;> simp [List.find?_cons, h]

theorem selectById_snoc_fresh {db : Db} {u : User} {n : Nat}
    (hb : idsBounded db) (hid : u.id = db.nextId) :
    selectById { rows := db.rows ++ [u], nextId := n } u.id = some u := by
  unfold selectById
  simp only [List.find?_append]
  have hleft : db.rows.find? (fun r => r.id == u.id) = none := by
    refine List.find?_eq_none.mpr ?_
    intro r hr
    have := hb r hr
    simp only [beq_iff_eq]
    omega
  simp [hleft, List.find?_cons]

theorem selectById_deleteRow {db : Db} {i : Nat} :
    selectById (deleteRow db i) i = none := by
  unfold selectById deleteRow
  refine List.find?_eq_none.mpr ?_
  intro x hx
  have hmem := List.mem_filter.mp hx
  simpa using hmem.2

theorem selectById_mapPasswords {f : String → String} {db : Db} {i : Nat} :
    selectById (mapPasswords f db) i = (selectById db i).map (setPassword f) := by
  unfold selectById mapPasswords setPassword
  rw [List.find?_map]
  rfl

theorem selectByEmail_mapPasswords {f : String → String} {db : Db} {e : String} :
    selectByEmail (mapPasswords f db) e = (selectByEmail db e).map (setPassword f) := by
  unfold selectByEmail mapPasswords setPassword
  rw [List.find?_map]
  rfl

/-! ### Handler equations and inversions -/

theorem createUserHandler_eq_of_dup {db : Db} {hash : String → String}
    {req : CreateUserRequest} {now : Nat} {u : User}
    (h : selectByEmail db req.email = some u) :
    createUserHandler db hash req now =
      (Resp.conflict ("User with email " ++ req.email ++ " already exists"), db) := by
  unfold createUserHandler
  rw [h]

theorem createUserHandler_eq_of_fresh {db : Db} {hash : String → String}
    {req : CreateUserRequest} {now : Nat}
    (h : selectByEmail db req.email = none) :
    createUserHandler db hash req now =
      (Resp.created (newUser db hash req now).toUserResponse,
       { rows := db.rows ++ [newUser db hash req now], nextId := db.nextId + 1 }) := by
  unfold createUserHandler insertUser newUser
  rw [h]
  simp [h]

theorem createUserHandler_created {db : Db} {hash : String → String}
    {req : CreateUserRequest} {now : Nat} {d : UserResponse} {db' : Db}
    (h : createUserHandler db hash req now = (Resp.created d, db')) :
    selectByEmail db req.email = none ∧
    d = (newUser db hash req now).toUserResponse ∧
    db' = { rows := db.rows ++ [newUser db hash req now], nextId := db.nextId + 1 } := by
  cases hse : selectByEmail db req.email with
  | some u =>
      rw [createUserHandler_eq_of_dup hse] at h
      exact absurd (congrArg Prod.fst h) (by simp)
  | none =>
      rw [createUserHandler_eq_of_fresh hse] at h
      have h1 := congrArg Prod.fst h
      have h2 := congrArg Prod.snd h
      simp only at h1 h2
      exact ⟨rfl, (Resp.created.inj h1).symm, h2.symm⟩

theorem signupHandler_eq_of_dup {db : Db} {hash : String → String}
    {req : SignupRequest} {now : Nat} {u : User}
    (h : selectByEmail db req.email = some u) :
    signupHandler db hash req now =
      (Resp.conflict ("User with email " ++ req.email ++ " already exists"), db) := by
  unfold signupHandler
  rw [h]

theorem signupHandler_eq_of_fresh {db : Db} {hash : String → String}
    {req : SignupRequest} {now : Nat}
    (h : selectByEmail db req.email = none) :
    signupHandler db hash req now =
      (Resp.created (newSignupUser db hash req now).toUserResponse,
       { rows := db.rows ++ [newSignupUser db hash req now], nextId := db.nextId + 1 }) := by
  unfold signupHandler insertUser newSignupUser
  rw [h]
  simp [h]

theorem updateUserHandler_eq_none {db : Db} {id : Nat} {req : UpdateUserRequest}
    {now : Nat} (h : selectById db id = none) :
    updateUserHandler db id req now =
      (Resp.notFound ("User with ID " ++ toString id ++ " not found"), db) := by
  unfold updateUserHandler
  rw [h]

theorem updateUserHandler_eq_conflict {db : Db} {id : Nat}
    {req : UpdateUserRequest} {now : Nat} {existing v : User} {e : String}
    (hex : selectById db id = some existing) (he : req.email = some e)
    (hne : e ≠ existing.email) (hv : selectByEmail db e = some v) :
    updateUserHandler db id req now =
      (Resp.conflict ("Email " ++ e ++ " is already taken"), db) := by
  unfold updateUserHandler
  rw [hex, he]
  dsimp only
  rw [if_pos ⟨hne, by rw [hv]; rfl⟩]

theorem updateUserHandler_eq_ok {db : Db} {id : Nat} {req : UpdateUserRequest}
    {now : Nat} {existing : User}
    (hex : selectById db id = some existing)
    (hok : req.email = none ∨
      ∃ e, req.email = some e ∧ (e = existing.email ∨ selectByEmail db e = none)) :
    updateUserHandler db id req now =
      (Resp.ok (applyPatch existing req now).toUserResponse,
       updateRow db id (applyPatch existing req now)) := by
  unfold updateUserHandler
  rw [hex]
  rcases hok with hnone | ⟨e, he, hcase⟩
  · rw [hnone]
  · rw [he]
    dsimp only
    rw [if_neg ?_]
    rcases hcase with rfl | hfresh
    · intro hcontra
      exact hcontra.1 rfl
    · intro hcontra
      rw [hfresh] at hcontra
      exact absurd hcontra.2 (by simp)

theorem updateUserHandler_ok_inv {db : Db} {id : Nat} {req : UpdateUserRequest}
    {now : Nat} {d : UserResponse} {db' : Db}
    (h : updateUserHandler db id req now = (Resp.ok d, db')) :
    ∃ existing, selectById db id = some existing ∧
      d = (applyPatch existing req now).toUserResponse ∧
      db' = updateRow db id (applyPatch existing req now) := by
  cases hex : selectById db id with
  | none =>
      rw [updateUserHandler_eq_none hex] at h
      exact absurd (congrArg Prod.fst h) (by simp)
  | some existing =>
      refine ⟨existing, rfl, ?_⟩
      cases he : req.email with
      | none =>
          rw [updateUserHandler_eq_ok hex (Or.inl he)] at h
          exact ⟨(Resp.ok.inj (congrArg Prod.fst h)).symm, (congrArg Prod.snd h).symm⟩
      | some e =>
          by_cases hc : e ≠ existing.email ∧ (selectByEmail db e).isSome
          · cases hv : selectByEmail db e with
            | none => rw [hv] at hc; exact absurd hc.2 (by simp)
            | some v =>
                rw [updateUserHandler_eq_conflict hex he hc.1 hv] at h
                exact absurd (congrArg Prod.fst h) (by simp)
          · have hok : e = existing.email ∨ selectByEmail db e = none := by
              rcases not_and_or.mp hc with h1 | h2
              · exact Or.inl (not_not.mp h1)
              · exact Or.inr (Option.not_isSome_iff_eq_none.mp h2)
            rw [updateUserHandler_eq_ok hex (Or.inr ⟨e, he, hok⟩)] at h
            exact ⟨(Resp.ok.inj (congrArg Prod.fst h)).symm, (congrArg Prod.snd h).symm⟩

/-! ### Preservation of the schema invariants -/

theorem Wf_snoc {db : Db} {u : User} (hWf : Wf db) (hid : u.id = db.nextId)
    (hem : selectByEmail db u.email = none) :
    Wf { rows := db.rows ++ [u], nextId := db.nextId + 1 } := by
  obtain ⟨hb, hi, he⟩ := hWf
  refine ⟨?_, ?_, ?_⟩
  · intro r hr
    rcases List.mem_append.mp hr with h1 | h1
    · have := hb r h1
      simp only
      omega
    · have h2 : r = u := by simpa using h1
      subst h2
      simp only
      omega
  · refine List.pairwise_append.mpr ⟨hi, by simp, ?_⟩
    intro a ha b hb'
    have h2 : b = u := by simpa using hb'
    subst h2
    have := hb a ha
    rw [hid]
    omega
  · refine List.pairwise_append.mpr ⟨he, by simp, ?_⟩
    intro a ha b hb'
    have h2 : b = u := by simpa using hb'
    subst h2
    exact selectByEmail_eq_none.mp hem a ha

theorem Wf_updateRow {db : Db} {id : Nat} {existing u : User} (hWf : Wf db)
    (hex : selectById db id = some existing) (hid : u.id = existing.id)
    (hem : u.email = existing.email ∨ selectByEmail db u.email = none) :
    Wf (updateRow db id u) := by
  obtain ⟨hb, hi, he⟩ := hWf
  obtain ⟨hexmem, hexid⟩ := selectById_mem hex
  have hidf : ∀ r : User,
      ((if r.id == id then { u with password := r.password } else r) : User).id = r.id := by
    intro r
    by_cases h : r.id = id
    · simp [h, hid, hexid]
    · simp [h]
  refine ⟨?_, ?_, ?_⟩
  · intro r' hr'
    rcases List.mem_map.mp hr' with ⟨r, hr, rfl⟩
    rw [hidf r]
    exact hb r hr
  · unfold updateRow idsUnique
    simp only
    rw [List.pairwise_map]
    refine hi.imp ?_
    intro a b hab
    rw [hidf a, hidf b]
    exact hab
  · have hcomb : db.rows.Pairwise (fun a b => a.id ≠ b.id ∧ a.email ≠ b.email) :=
      hi.and he
    unfold updateRow emailsUnique
    simp only
    rw [List.pairwise_map]
    refine hcomb.imp_of_mem ?_
    intro a b ha hb' hab
    obtain ⟨habid, habem⟩ := hab
    have hf : ∀ r : User,
        ((if r.id == id then { u with password := r.password } else r) : User).email =
          if r.id = id then u.email else r.email := by
      intro r
      by_cases h : r.id = id <;> simp [h]
    rw [hf a, hf b]
    by_cases h1 : a.id = id <;> by_cases h2 : b.id = id
    · exact absurd (h1.trans h2.symm) habid
    · rw [if_pos h1, if_neg h2]
      rcases hem with hsame | hfresh
      · have haeq : a = existing := eq_of_selectById hi hex ha h1
        rw [hsame, ← haeq]
        exact habem
      · exact fun hcontra => selectByEmail_eq_none.mp hfresh b hb' hcontra.symm
    · rw [if_neg h1, if_pos h2]
      rcases hem with hsame | hfresh
      · have hbeq : b = existing := eq_of_selectById hi hex hb' h2
        rw [hsame, ← hbeq]
        exact habem
      · exact fun hcontra => selectByEmail_eq_none.mp hfresh a ha hcontra
    · rw [if_neg h1, if_neg h2]
      exact habem

theorem Wf_deleteRow {db : Db} {i : Nat} (hWf : Wf db) : Wf (deleteRow db i) := by
  obtain ⟨hb, hi, he⟩ := hWf
  have hsub : (db.rows.filter (fun r => !(r.id == i))).Sublist db.rows :=
    List.filter_sublist db.rows
  refine ⟨?_, hi.sublist hsub, he.sublist hsub⟩
  intro r hr
  exact hb r (List.mem_filter.mp hr).1

theorem Wf_createUserHandler {db : Db} (hash : String → String)
    (req : CreateUserRequest) (now : Nat) (hWf : Wf db) :
    Wf (createUserHandler db hash req now).2 := by
  cases hse : selectByEmail db req.email with
  | some u =>
      rw [createUserHandler_eq_of_dup hse]
      exact hWf
  | none =>
      rw [createUserHandler_eq_of_fresh hse]
      exact Wf_snoc hWf rfl hse

theorem Wf_signupHandler {db : Db} (hash : String → String)
    (req : SignupRequest) (now : Nat) (hWf : Wf db) :
    Wf (signupHandler db hash req now).2 := by
  cases hse : selectByEmail db req.email with
  | some u =>
      rw [signupHandler_eq_of_dup hse]
      exact hWf
  | none =>
      rw [signupHandler_eq_of_fresh hse]
      exact Wf_snoc hWf rfl hse

theorem Wf_updateUserHandler {db : Db} (id : Nat) (req : UpdateUserRequest)
    (now : Nat) (hWf : Wf db) :
    Wf (updateUserHandler db id req now).2 := by
  cases hex : selectById db id with
  | none =>
      rw [updateUserHandler_eq_none hex]
      exact hWf
  | some existing =>
      cases he : req.email with
      | none =>
          rw [updateUserHandler_eq_ok hex (Or.inl he)]
          refine Wf_updateRow hWf hex rfl (Or.inl ?_)
          simp [applyPatch, he]
      | some e =>
          by_cases hc : e ≠ existing.email ∧ (selectByEmail db e).isSome
          · cases hv : selectByEmail db e with
            | none =>
                rw [hv] at hc
                exact absurd hc.2 (by simp)
            | some v =>
                rw [updateUserHandler_eq_conflict hex he hc.1 hv]
                exact hWf
          · have hok : e = existing.email ∨ selectByEmail db e = none := by
              rcases not_and_or.mp hc with h1 | h2
              · exact Or.inl (not_not.mp h1)
              · exact Or.inr (Option.not_isSome_iff_eq_none.mp h2)
            rw [updateUserHandler_eq_ok hex (Or.inr ⟨e, he, hok⟩)]
            refine Wf_updateRow hWf hex rfl ?_
            rcases hok with rfl | hfresh
            · exact Or.inl (by simp [applyPatch, he])
            · refine Or.inr ?_
              have : (applyPatch existing req now).email = e := by
                simp [applyPatch, he]
              rw [this]
              exact hfresh

theorem Wf_deleteUserHandler {db : Db} (id : Nat) (hWf : Wf db) :
    Wf (deleteUserHandler db id).2 := by
  unfold deleteUserHandler
  cases hex : selectById db id with
  | none => exact hWf
  | some u => exact Wf_deleteRow hWf

/-! ### Timestamp bookkeeping -/

theorem timestampsOk_mono {db : Db} {c now : Nat} (hts : timestampsOk db c)
    (hc : c ≤ now) : timestampsOk db now := by
  intro u hu
  obtain ⟨h1, h2⟩ := hts u hu
  exact ⟨h1, le_trans h2 hc⟩

theorem timestampsOk_snoc {db : Db} {u : User} {c now : Nat}
    (hts : timestampsOk db c) (hc : c ≤ now)
    (h1 : u.createdAt = now) (h2 : u.updatedAt = now) :
    timestampsOk { rows := db.rows ++ [u], nextId := db.nextId + 1 } now := by
  intro r hr
  rcases List.mem_append.mp hr with hm | hm
  · exact timestampsOk_mono hts hc r hm
  · have h3 : r = u := by simpa using hm
    subst h3
    rw [h1, h2]
    exact ⟨le_refl _, le_refl _⟩

theorem timestampsOk_updateRow {db : Db} {id : Nat} {existing : User}
    {req : UpdateUserRequest} {c now : Nat}
    (hex : selectById db id = some existing) (hts : timestampsOk db c)
    (hc : c ≤ now) :
    timestampsOk (updateRow db id (applyPatch existing req now)) now := by
  obtain ⟨hexmem, hexid⟩ := selectById_mem hex
  intro r' hr'
  rcases List.mem_map.mp hr' with ⟨r, hr, rfl⟩
  by_cases h : r.id = id
  · obtain ⟨he1, he2⟩ := hts existing hexmem
    have heq : (if r.id == id then
        { applyPatch existing req now with password := r.password } else r) =
        { applyPatch existing req now with password := r.password } := by
      simp [h]
    rw [heq]
    refine ⟨?_, ?_⟩ <;> simp only [applyPatch] <;> omega
  · have heq : (if r.id == id then
        { applyPatch existing req now with password := r.password } else r) = r := by
      simp [h]
    rw [heq]
    exact timestampsOk_mono hts hc r hr

theorem loginHandler_eq_none {db : Db} {check : String → String → Bool}
    {req : LoginRequest} (h : selectByEmail db req.email = none) :
    loginHandler db check req = Resp.unauthorized "Invalid credentials" := by
  unfold loginHandler
  rw [h]

theorem loginHandler_eq_found {db : Db} {check : String → String → Bool}
    {req : LoginRequest} {u : User} (h : selectByEmail db req.email = some u) :
    loginHandler db check req =
      if check u.password req.password then Resp.ok u.toUserResponse
      else Resp.unauthorized "Invalid credentials" := by
  unfold loginHandler
  rw [h]

/-! ### The claims -/

/-- Claim C1: `login(email, password)` returns success with the user's
public projection iff a record with that email is stored and the password
verifies against its stored hash; in every other case — no such email, or
wrong password — the handler returns the very same 401 outcome with the
identical "Invalid credentials" message, so the two failure causes are
indistinguishable in the response. -/
theorem login_success_iff_and_uniform_failure (db : Db)
    (check : String → String → Bool) (req : LoginRequest) :
    (∀ d : UserResponse, loginHandler db check req = Resp.ok d ↔
      ∃ u : User, selectByEmail db req.email = some u ∧
        check u.password req.password = true ∧ d = u.toUserResponse)
    ∧ (selectByEmail db req.email = none →
        loginHandler db check req = Resp.unauthorized "Invalid credentials")
    ∧ (∀ u : User, selectByEmail db req.email = some u →
        check u.password req.password = false →
        loginHandler db check req = Resp.unauthorized "Invalid credentials") := by
  refine ⟨?_, ?_, ?_⟩
  · intro d
    constructor
    · intro h
      cases hse : selectByEmail db req.email with
      | none =>
          rw [loginHandler_eq_none hse] at h
          exact absurd h (by simp)
      | some u =>
          rw [loginHandler_eq_found hse] at h
          by_cases hc : check u.password req.password
          · rw [if_pos hc] at h
            exact ⟨u, rfl, hc, (Resp.ok.inj h).symm⟩
          · rw [if_neg hc] at h
            exact absurd h (by simp)
    · rintro ⟨u, hse, hc, rfl⟩
      rw [loginHandler_eq_found hse, if_pos hc]
  · intro h
    exact loginHandler_eq_none h
  · intro u hse hc
    rw [loginHandler_eq_found hse, if_neg (by simp [hc])]

/-- Witness for C1: in the sample store, an unknown email and a wrong
password yield literally the same response, and the right password logs
in. -/
theorem login_success_iff_and_uniform_failure_witness :
    loginHandler exDb exCheck { email := "ghost@b.c", password := "pw" } =
        Resp.unauthorized "Invalid credentials"
    ∧ loginHandler exDb exCheck { email := "a@b.c", password := "wrong" } =
        Resp.unauthorized "Invalid credentials"
    ∧ loginHandler exDb exCheck { email := "a@b.c", password := "pw" } =
        Resp.ok exUser.toUserResponse := by
  refine ⟨?_, ?_, ?_⟩
  · exact (login_success_iff_and_uniform_failure exDb exCheck
      { email := "ghost@b.c", password := "pw" }).2.1 (by decide)
  · exact (login_success_iff_and_uniform_failure exDb exCheck
      { email := "a@b.c", password := "wrong" }).2.2 exUser (by decide) (by decide)
  · exact ((login_success_iff_and_uniform_failure exDb exCheck
      { email := "a@b.c", password := "pw" }).1 exUser.toUserResponse).mpr
      ⟨exUser, by decide, by decide, rfl⟩

/-- Claim C2: no two records ever share an email and every operation
preserves this; create and signup on an already-stored email answer the 409
conflict without inserting, and an update whose changed email collides with
another record answers the 409 conflict without writing. -/
theorem email_uniqueness_invariant (db : Db) (hash : String → String) :
    (∀ req now, Wf db → emailsUnique (createUserHandler db hash req now).2)
    ∧ (∀ req now, Wf db → emailsUnique (signupHandler db hash req now).2)
    ∧ (∀ id req now, Wf db → emailsUnique (updateUserHandler db id req now).2)
    ∧ (∀ id, Wf db → emailsUnique (deleteUserHandler db id).2)
    ∧ (∀ (req : CreateUserRequest) now (u : User),
        selectByEmail db req.email = some u →
        createUserHandler db hash req now =
          (Resp.conflict ("User with email " ++ req.email ++ " already exists"), db))
    ∧ (∀ (req : SignupRequest) now (u : User),
        selectByEmail db req.email = some u →
        signupHandler db hash req now =
          (Resp.conflict ("User with email " ++ req.email ++ " already exists"), db))
    ∧ (∀ id req now (u v : User) (e : String), selectById db id = some u →
        req.email = some e → e ≠ u.email → selectByEmail db e = some v →
        updateUserHandler db id req now =
          (Resp.conflict ("Email " ++ e ++ " is already taken"), db)) :=
  ⟨fun req now hWf => (Wf_createUserHandler hash req now hWf).2.2,
   fun req now hWf => (Wf_signupHandler hash req now hWf).2.2,
   fun id req now hWf => (Wf_updateUserHandler id req now hWf).2.2,
   fun id hWf => (Wf_deleteUserHandler id hWf).2.2,
   fun _ _ _ h => createUserHandler_eq_of_dup h,
   fun _ _ _ h => signupHandler_eq_of_dup h,
   fun _ _ _ _ _ _ h1 h2 h3 h4 => updateUserHandler_eq_conflict h1 h2 h3 h4⟩

/-- Witness for C2: creating the already-stored email in the sample store
answers the conflict and leaves the store unchanged, and a fresh create
keeps emails unique. -/
theorem email_uniqueness_invariant_witness :
    createUserHandler exDb exHash dupEveReq 9 =
      (Resp.conflict ("User with email " ++ "a@b.c" ++ " already exists"), exDb)
    ∧ emailsUnique (createUserHandler exDb exHash eveReq 9).2 := by
  constructor
  · exact (email_uniqueness_invariant exDb exHash).2.2.2.2.1
      dupEveReq 9 exUser (by decide)
  · exact (email_uniqueness_invariant exDb exHash).1 eveReq 9
      ⟨by decide, by decide, by decide⟩

theorem selectById_updateRow {db : Db} {id : Nat} {existing u : User}
    (hex : selectById db id = some existing) (hid : u.id = existing.id) :
    selectById (updateRow db id u) id =
      some { u with password := existing.password } := by
  obtain ⟨hexmem, hexid⟩ := selectById_mem hex
  unfold selectById updateRow
  simp only
  rw [List.find?_map]
  have hp : ((fun (r : User) => r.id == id) ∘
      (fun r => if r.id == id then { u with password := r.password } else r)) =
      (fun (r : User) => r.id == id) := by
    funext r
    by_cases h : r.id = id <;> simp [h, hid, hexid]
  rw [hp]
  unfold selectById at hex
  rw [hex]
  simp [hexid]

/-- Claim C4: a successful update changes exactly the fields present in
the patch and advances `updatedAt`; every absent field keeps its prior
value, `createdAt` and `id` are untouched, and the stored row agrees with
the response (its password also unchanged). -/
theorem update_frame (db : Db) (id : Nat) (req : UpdateUserRequest)
    (now : Nat) (u : User) (d : UserResponse) (db' : Db)
    (hu : selectById db id = some u)
    (h : updateUserHandler db id req now = (Resp.ok d, db')) :
    d.name = req.name.getD u.name ∧
    d.email = req.email.getD u.email ∧
    d.age = (match req.age with | some a => some a | none => u.age) ∧
    d.isActive = req.isActive.getD u.isActive ∧
    d.id = u.id ∧ d.createdAt = u.createdAt ∧ d.updatedAt = now ∧
    selectById db' id = some (applyPatch u req now) ∧
    (applyPatch u req now).password = u.password := by
  obtain ⟨existing, hex, hd, hdb⟩ := updateUserHandler_ok_inv h
  have heq : existing = u := by
    rw [hu] at hex
    exact (Option.some_inj.mp hex).symm
  subst heq
  subst hd
  subst hdb
  refine ⟨rfl, rfl, rfl, rfl, rfl, rfl, rfl, ?_, rfl⟩
  have hsel := selectById_updateRow hu (rfl : (applyPatch existing req now).id = existing.id)
  rw [hsel]
  rfl

/-- Witness for C4: `updateUser(1, {age: 31})` on the sample store keeps
`name`, `email`, `isActive` and `createdAt`, sets `age` to 31, advances
`updatedAt`, and persists exactly the merged row. -/
theorem update_frame_witness :
    (applyPatch exUser patch31 9).toUserResponse.name = "Alice" ∧
    (applyPatch exUser patch31 9).toUserResponse.email = "a@b.c" ∧
    (applyPatch exUser patch31 9).toUserResponse.isActive = true ∧
    (applyPatch exUser patch31 9).toUserResponse.age = some 31 ∧
    (applyPatch exUser patch31 9).toUserResponse.createdAt = 5 ∧
    (applyPatch exUser patch31 9).toUserResponse.updatedAt = 9 ∧
    selectById (updateUserHandler exDb 1 patch31 9).2 1 =
      some (applyPatch exUser patch31 9) := by
  have h := update_frame exDb 1 patch31 9 exUser
      (applyPatch exUser patch31 9).toUserResponse
      (updateUserHandler exDb 1 patch31 9).2
      (by decide) (by decide)
  exact ⟨by simpa using h.1, by simpa using h.2.1, by simpa using h.2.2.2.1,
    by simpa using h.2.2.1, by simpa using h.2.2.2.2.2.1,
    by simpa using h.2.2.2.2.2.2.1, h.2.2.2.2.2.2.2.1⟩

/-- Claim C6: deleting an absent id reports NotFound and leaves the store
unchanged; after a successful delete of an id, reading that id reports
NotFound and every repeated delete of it reports NotFound again without
changing the store (deletion is physical, repeated deletion fails
idempotently). -/
theorem delete_notfound_and_idempotent (db : Db) (id : Nat) :
    (selectById db id = none →
      deleteUserHandler db id =
        (Resp.notFound ("User with ID " ++ toString id ++ " not found"), db))
    ∧ (∀ u, selectById db id = some u →
        (deleteUserHandler db id).1 = Resp.okMsg "User deleted successfully"
        ∧ selectById (deleteUserHandler db id).2 id = none
        ∧ getUserByIdHandler (deleteUserHandler db id).2 id =
            Resp.notFound ("User with ID " ++ toString id ++ " not found")
        ∧ deleteUserHandler (deleteUserHandler db id).2 id =
            (Resp.notFound ("User with ID " ++ toString id ++ " not found"),
             (deleteUserHandler db id).2)) := by
  constructor
  · intro h
    unfold deleteUserHandler
    rw [h]
  · intro u h
    have hdel : deleteUserHandler db id =
        (Resp.okMsg "User deleted successfully", deleteRow db id) := by
      unfold deleteUserHandler
      rw [h]
    rw [hdel]
    have hnone : selectById (deleteRow db id) id = none := selectById_deleteRow
    refine ⟨rfl, hnone, ?_, ?_⟩
    · unfold getUserByIdHandler
      rw [hnone]
    · unfold deleteUserHandler
      rw [hnone]

/-- Witness for C6 on the sample store: deleting id 1 succeeds, the read
then misses, the second delete misses, while deleting the absent id 7
misses immediately. -/
theorem delete_notfound_and_idempotent_witness :
    deleteUserHandler exDb 7 =
      (Resp.notFound ("User with ID " ++ toString 7 ++ " not found"), exDb)
    ∧ (deleteUserHandler exDb 1).1 = Resp.okMsg "User deleted successfully"
    ∧ getUserByIdHandler (deleteUserHandler exDb 1).2 1 =
        Resp.notFound ("User with ID " ++ toString 1 ++ " not found")
    ∧ deleteUserHandler (deleteUserHandler exDb 1).2 1 =
        (Resp.notFound ("User with ID " ++ toString 1 ++ " not found"),
         (deleteUserHandler exDb 1).2) := by
  have h1 := (delete_notfound_and_idempotent exDb 7).1 (by decide)
  have h2 := (delete_notfound_and_idempotent exDb 1).2 exUser (by decide)
  exact ⟨h1, h2.1, h2.2.2.1, h2.2.2.2⟩

/-- Claim C7: every record is created with `createdAt = updatedAt = now`;
a successful update keeps `createdAt` and stamps `updatedAt` with the
current time; and under a monotone clock every operation preserves
`createdAt ≤ updatedAt ≤ clock`, so `updatedAt ≥ createdAt` holds for
every record at every time. -/
theorem timestamps_invariant (db : Db) (hash : String → String)
    (c now : Nat) :
    (∀ (req : CreateUserRequest) d db',
        createUserHandler db hash req now = (Resp.created d, db') →
        d.createdAt = now ∧ d.updatedAt = now)
    ∧ (∀ id (req : UpdateUserRequest) (u : User) d db',
        selectById db id = some u →
        updateUserHandler db id req now = (Resp.ok d, db') →
        d.createdAt = u.createdAt ∧ d.updatedAt = now)
    ∧ (timestampsOk db c → c ≤ now →
        (∀ req : CreateUserRequest,
          timestampsOk (createUserHandler db hash req now).2 now)
        ∧ (∀ req : SignupRequest,
          timestampsOk (signupHandler db hash req now).2 now)
        ∧ (∀ (id : Nat) (req : UpdateUserRequest),
          timestampsOk (updateUserHandler db id req now).2 now)
        ∧ (∀ id : Nat, timestampsOk (deleteUserHandler db id).2 now)) := by
  refine ⟨?_, ?_, ?_⟩
  · intro req d db' h
    obtain ⟨hse, hd, hdb⟩ := createUserHandler_created h
    subst hd
    exact ⟨rfl, rfl⟩
  · intro id req u d db' hu h
    obtain ⟨existing, hex, hd, hdb⟩ := updateUserHandler_ok_inv h
    have heq : existing = u := by
      rw [hu] at hex
      exact (Option.some_inj.mp hex).symm
    subst heq
    subst hd
    exact ⟨rfl, rfl⟩
  · intro hts hc
    refine ⟨?_, ?_, ?_, ?_⟩
    · intro req
      cases hse : selectByEmail db req.email with
      | some u =>
          rw [createUserHandler_eq_of_dup hse]
          exact timestampsOk_mono hts hc
      | none =>
          rw [createUserHandler_eq_of_fresh hse]
          exact timestampsOk_snoc hts hc rfl rfl
    · intro req
      cases hse : selectByEmail db req.email with
      | some u =>
          rw [signupHandler_eq_of_dup hse]
          exact timestampsOk_mono hts hc
      | none =>
          rw [signupHandler_eq_of_fresh hse]
          exact timestampsOk_snoc hts hc rfl rfl
    · intro id req
      cases hex : selectById db id with
      | none =>
          rw [updateUserHandler_eq_none hex]
          exact timestampsOk_mono hts hc
      | some existing =>
          cases he : req.email with
          | none =>
              rw [updateUserHandler_eq_ok hex (Or.inl he)]
              exact timestampsOk_updateRow hex hts hc
          | some e =>
              by_cases hcnd : e ≠ existing.email ∧ (selectByEmail db e).isSome
              · cases hv : selectByEmail db e with
                | none =>
                    rw [hv] at hcnd
                    exact absurd hcnd.2 (by simp)
                | some v =>
                    rw [updateUserHandler_eq_conflict hex he hcnd.1 hv]
                    exact timestampsOk_mono hts hc
              · have hok : e = existing.email ∨ selectByEmail db e = none := by
                  rcases not_and_or.mp hcnd with h1 | h2
                  · exact Or.inl (not_not.mp h1)
                  · exact Or.inr (Option.not_isSome_iff_eq_none.mp h2)
                rw [updateUserHandler_eq_ok hex (Or.inr ⟨e, he, hok⟩)]
                exact timestampsOk_updateRow hex hts hc
    · intro id
      unfold deleteUserHandler
      cases hex : selectById db id with
      | none => exact timestampsOk_mono hts hc
      | some u =>
          intro r hr
          exact timestampsOk_mono hts hc r (List.mem_filter.mp hr).1

/-- Witness for C7 on the sample store: a create at time 9 stamps both
timestamps with 9, the `{age: 31}` update keeps `createdAt = 5` and sets
`updatedAt = 9`, and the updated store satisfies the timestamp invariant
at time 9. -/
theorem timestamps_invariant_witness :
    ((newUser exDb exHash eveReq 9).toUserResponse.createdAt = 9
      ∧ (newUser exDb exHash eveReq 9).toUserResponse.updatedAt = 9)
    ∧ ((applyPatch exUser patch31 9).toUserResponse.createdAt = 5
      ∧ (applyPatch exUser patch31 9).toUserResponse.updatedAt = 9)
    ∧ timestampsOk (updateUserHandler exDb 1 patch31 9).2 9 := by
  have h := timestamps_invariant exDb exHash 5 9
  refine ⟨?_, ?_, ?_⟩
  · have h1 := h.1 eveReq (newUser exDb exHash eveReq 9).toUserResponse
      (createUserHandler exDb exHash eveReq 9).2 (by decide)
    exact h1
  · have h2 := h.2.1 1 patch31 exUser
      (applyPatch exUser patch31 9).toUserResponse
      (updateUserHandler exDb 1 patch31 9).2 (by decide) (by decide)
    simpa using h2
  · exact (h.2.2 (by decide) (by decide)).2.2.1 1 patch31

/-- Claim C8: round-trip — a successful `createUser` followed by
`getById` on the returned id yields a public projection equal to the one
the create call returned. -/
theorem create_then_get_roundtrip (db : Db) (hash : String → String)
    (req : CreateUserRequest) (now : Nat) (d : UserResponse) (db' : Db)
    (hWf : Wf db)
    (h : createUserHandler db hash req now = (Resp.created d, db')) :
    getUserByIdHandler db' d.id = Resp.ok d := by
  obtain ⟨hse, hd, hdb⟩ := createUserHandler_created h
  subst hd
  subst hdb
  have hsel : selectById
      { rows := db.rows ++ [newUser db hash req now], nextId := db.nextId + 1 }
      (newUser db hash req now).id = some (newUser db hash req now) :=
    selectById_snoc_fresh hWf.1 rfl
  unfold getUserByIdHandler
  rw [show (newUser db hash req now).toUserResponse.id =
    (newUser db hash req now).id from rfl, hsel]

/-- Witness for C8: creating a fresh user in the sample store and reading
back the returned id gives exactly the create response. -/
theorem create_then_get_roundtrip_witness :
    getUserByIdHandler (createUserHandler exDb exHash eveReq 9).2
      (newUser exDb exHash eveReq 9).toUserResponse.id =
    Resp.ok (newUser exDb exHash eveReq 9).toUserResponse :=
  create_then_get_roundtrip exDb exHash eveReq 9
    (newUser exDb exHash eveReq 9).toUserResponse
    (createUserHandler exDb exHash eveReq 9).2
    (by decide) (by decide)

/-- Claim C9: the PUT and PATCH update routes dispatch to the very same
handler, so they are behaviorally identical; and that handler performs a
merge-only-present-fields partial update — a PUT whose body omits a field
keeps the field's prior value, so PUT does not replace the whole
resource. -/
theorem put_patch_identical_merge_semantics :
    putUserRoute = patchUserRoute
    ∧ (∀ db id req now (u : User) d db', selectById db id = some u →
        putUserRoute db id req now = (Resp.ok d, db') →
        (req.name = none → d.name = u.name)
        ∧ (req.email = none → d.email = u.email)
        ∧ (req.age = none → d.age = u.age)
        ∧ (req.isActive = none → d.isActive = u.isActive)
        ∧ d.updatedAt = now) := by
  refine ⟨rfl, ?_⟩
  intro db id req now u d db' hu h
  unfold putUserRoute at h
  obtain ⟨existing, hex, hd, hdb⟩ := updateUserHandler_ok_inv h
  have heq : existing = u := by
    rw [hu] at hex
    exact (Option.some_inj.mp hex).symm
  subst heq
  subst hd
  refine ⟨?_, ?_, ?_, ?_, rfl⟩
  · intro hn
    simp [applyPatch, User.toUserResponse, hn]
  · intro hn
    simp [applyPatch, User.toUserResponse, hn]
  · intro hn
    simp [applyPatch, User.toUserResponse, hn]
  · intro hn
    simp [applyPatch, User.toUserResponse, hn]

/-- Witness for C9: a PUT on the sample store whose body only carries
`age` keeps the other fields. -/
theorem put_patch_identical_merge_semantics_witness :
    (putUserRoute exDb 1 patch31 9).1 =
      Resp.ok (applyPatch exUser patch31 9).toUserResponse
    ∧ (applyPatch exUser patch31 9).toUserResponse.name = "Alice"
    ∧ (applyPatch exUser patch31 9).toUserResponse.email = "a@b.c"
    ∧ (applyPatch exUser patch31 9).toUserResponse.isActive = true := by
  have h := put_patch_identical_merge_semantics.2 exDb 1 patch31 9 exUser
      (applyPatch exUser patch31 9).toUserResponse
      (putUserRoute exDb 1 patch31 9).2 (by decide) (by decide)
  exact ⟨by decide, by simpa using h.1 rfl, by simpa using h.2.1 rfl,
    by simpa using h.2.2.2.1 rfl⟩

theorem updateUserHandler_db_cases (db : Db) (id : Nat)
    (req : UpdateUserRequest) (now : Nat) :
    (updateUserHandler db id req now).2 = db ∨
    ∃ existing, selectById db id = some existing ∧
      (updateUserHandler db id req now).2 =
        updateRow db id (applyPatch existing req now) := by
  cases hex : selectById db id with
  | none =>
      left
      rw [updateUserHandler_eq_none hex]
  | some existing =>
      cases he : req.email with
      | none =>
          right
          exact ⟨existing, rfl, by rw [updateUserHandler_eq_ok hex (Or.inl he)]⟩
      | some e =>
          by_cases hc : e ≠ existing.email ∧ (selectByEmail db e).isSome
          · cases hv : selectByEmail db e with
            | none =>
                rw [hv] at hc
                exact absurd hc.2 (by simp)
            | some v =>
                left
                rw [updateUserHandler_eq_conflict hex he hc.1 hv]
          · right
            have hok : e = existing.email ∨ selectByEmail db e = none := by
              rcases not_and_or.mp hc with h1 | h2
              · exact Or.inl (not_not.mp h1)
              · exact Or.inr (Option.not_isSome_iff_eq_none.mp h2)
            exact ⟨existing, rfl,
              by rw [updateUserHandler_eq_ok hex (Or.inr ⟨e, he, hok⟩)]⟩

/-- Claim C10: no update can change a stored password hash — the update
request shape has no password field and the UPDATE statement's SET list
omits the password column, so every update leaves the (id, password)
column pairs of the whole table untouched; consequently after any
successful update, login at the user's current email with the original
password still succeeds. -/
theorem update_never_changes_password (db : Db) :
    (∀ id req now,
      (updateUserHandler db id req now).2.rows.map (fun r => (r.id, r.password)) =
        db.rows.map (fun r => (r.id, r.password)))
    ∧ (∀ id req now (u : User) d db' (check : String → String → Bool)
        (pw : String),
        Wf db → selectById db id = some u →
        updateUserHandler db id req now = (Resp.ok d, db') →
        check u.password pw = true →
        applyPatch u req now ∈ db'.rows ∧
        (applyPatch u req now).password = u.password ∧
        loginHandler db' check
          { email := (applyPatch u req now).email, password := pw } =
          Resp.ok (applyPatch u req now).toUserResponse) := by
  constructor
  · intro id req now
    rcases updateUserHandler_db_cases db id req now with hsame | ⟨ex, hex, hupd⟩
    · rw [hsame]
    · rw [hupd]
      have hexid : ex.id = id := (selectById_mem hex).2
      unfold updateRow
      simp only
      rw [List.map_map]
      have hfun : ((fun (r : User) => (r.id, r.password)) ∘
          (fun r => if r.id == id then
            { applyPatch ex req now with password := r.password } else r)) =
          (fun (r : User) => (r.id, r.password)) := by
        funext r
        by_cases hr : r.id = id <;> simp [hr, applyPatch, hexid]
      rw [hfun]
  · intro id req now u d db' check pw hWf hu h hcheck
    obtain ⟨existing, hex, hd, hdb⟩ := updateUserHandler_ok_inv h
    have heq : existing = u := by
      rw [hu] at hex
      exact (Option.some_inj.mp hex).symm
    subst heq
    subst hd
    subst hdb
    have huid : existing.id = id := (selectById_mem hu).2
    have hmem : applyPatch existing req now ∈
        (updateRow db id (applyPatch existing req now)).rows := by
      unfold updateRow
      simp only
      refine List.mem_map.mpr ⟨existing, (selectById_mem hu).1, ?_⟩
      rw [if_pos (by simp [huid])]
      rfl
    have hWf' : Wf (updateRow db id (applyPatch existing req now)) := by
      have hw := Wf_updateUserHandler id req now hWf
      rw [h] at hw
      exact hw
    refine ⟨hmem, rfl, ?_⟩
    have hse : selectByEmail (updateRow db id (applyPatch existing req now))
        (applyPatch existing req now).email = some (applyPatch existing req now) :=
      selectByEmail_of_mem hWf'.2.2 hmem
    rw [loginHandler_eq_found hse]
    exact if_pos hcheck

/-- Witness for C10: after the `{age: 31}` update on the sample store,
logging in with the original password at the user's email still succeeds
and returns the updated projection. -/
theorem update_never_changes_password_witness :
    (updateUserHandler exDb 1 patch31 9).2.rows.map
        (fun r => (r.id, r.password)) = [(1, "H1")]
    ∧ loginHandler (updateUserHandler exDb 1 patch31 9).2 exCheck
        { email := (applyPatch exUser patch31 9).email, password := "pw" } =
      Resp.ok (applyPatch exUser patch31 9).toUserResponse := by
  have h1 := (update_never_changes_password exDb).1 1 patch31 9
  have h2 := (update_never_changes_password exDb).2 1 patch31 9 exUser
      (applyPatch exUser patch31 9).toUserResponse
      (updateUserHandler exDb 1 patch31 9).2 exCheck "pw"
      (by decide) (by decide) (by decide) (by decide)
  exact ⟨by rw [h1]; rfl, h2.2.2⟩

/-- Claim C5: no operation that returns user data ever exposes a password
or a password hash — the public projection `UserResponse` has no password
field (it is invariant under any rewrite of the stored hash), the
create/signup responses do not depend on the hash function, the read and
update responses do not depend on the stored hashes, and every projection
returned by list or login is `ToUserResponse` of a stored row. -/
theorem responses_never_contain_password :
    (∀ (u : User) (p : String),
      ({ u with password := p } : User).toUserResponse = u.toUserResponse)
    ∧ (∀ db (h1 h2 : String → String) (req : CreateUserRequest) now,
        (createUserHandler db h1 req now).1 = (createUserHandler db h2 req now).1)
    ∧ (∀ db (h1 h2 : String → String) (req : SignupRequest) now,
        (signupHandler db h1 req now).1 = (signupHandler db h2 req now).1)
    ∧ (∀ f db id,
        getUserByIdHandler (mapPasswords f db) id = getUserByIdHandler db id)
    ∧ (∀ f db id req now,
        (updateUserHandler (mapPasswords f db) id req now).1 =
          (updateUserHandler db id req now).1)
    ∧ (∀ db ds, getAllUsersHandler db = Resp.okList ds →
        ∀ d ∈ ds, d ∈ db.rows.map User.toUserResponse)
    ∧ (∀ db check req d, loginHandler db check req = Resp.ok d →
        d ∈ db.rows.map User.toUserResponse) := by
  refine ⟨fun u p => rfl, ?_, ?_, ?_, ?_, ?_, ?_⟩
  · intro db h1 h2 req now
    cases hse : selectByEmail db req.email with
    | some u =>
        rw [@createUserHandler_eq_of_dup db h1 req now u hse,
            @createUserHandler_eq_of_dup db h2 req now u hse]
    | none =>
        rw [@createUserHandler_eq_of_fresh db h1 req now hse,
            @createUserHandler_eq_of_fresh db h2 req now hse]
        rfl
  · intro db h1 h2 req now
    cases hse : selectByEmail db req.email with
    | some u =>
        rw [@signupHandler_eq_of_dup db h1 req now u hse,
            @signupHandler_eq_of_dup db h2 req now u hse]
    | none =>
        rw [@signupHandler_eq_of_fresh db h1 req now hse,
            @signupHandler_eq_of_fresh db h2 req now hse]
        rfl
  · intro f db id
    unfold getUserByIdHandler
    rw [selectById_mapPasswords]
    cases hsel : selectById db id with
    | none => rfl
    | some u => rfl
  · intro f db id req now
    cases hex : selectById db id with
    | none =>
        have hex2 : selectById (mapPasswords f db) id = none := by
          rw [selectById_mapPasswords, hex]
          rfl
        rw [updateUserHandler_eq_none hex, updateUserHandler_eq_none hex2]
    | some ex =>
        have hex2 : selectById (mapPasswords f db) id = some (setPassword f ex) := by
          rw [selectById_mapPasswords, hex]
          rfl
        cases he : req.email with
        | none =>
            rw [updateUserHandler_eq_ok hex (Or.inl he),
                updateUserHandler_eq_ok hex2 (Or.inl he)]
            rfl
        | some e =>
            by_cases hc : e ≠ ex.email ∧ (selectByEmail db e).isSome
            · obtain ⟨v, hv⟩ : ∃ v, selectByEmail db e = some v := by
                cases hvv : selectByEmail db e with
                | none =>
                    rw [hvv] at hc
                    exact absurd hc.2 (by simp)
                | some v => exact ⟨v, rfl⟩
              have hv2 : selectByEmail (mapPasswords f db) e =
                  some (setPassword f v) := by
                rw [selectByEmail_mapPasswords, hv]
                rfl
              rw [updateUserHandler_eq_conflict hex he hc.1 hv,
                  updateUserHandler_eq_conflict hex2 he hc.1 hv2]
            · have hok : e = ex.email ∨ selectByEmail db e = none := by
                rcases not_and_or.mp hc with hh1 | hh2
                · exact Or.inl (not_not.mp hh1)
                · exact Or.inr (Option.not_isSome_iff_eq_none.mp hh2)
              have hok2 : e = (setPassword f ex).email ∨
                  selectByEmail (mapPasswords f db) e = none := by
                rcases hok with hh1 | hh1
                · exact Or.inl hh1
                · refine Or.inr ?_
                  rw [selectByEmail_mapPasswords, hh1]
                  rfl
              rw [updateUserHandler_eq_ok hex (Or.inr ⟨e, he, hok⟩),
                  updateUserHandler_eq_ok hex2 (Or.inr ⟨e, he, hok2⟩)]
              rfl
  · intro db ds h d hd
    unfold getAllUsersHandler at h
    have hds := Resp.okList.inj h
    subst hds
    rcases List.mem_map.mp hd with ⟨r, hr, rfl⟩
    exact List.mem_map.mpr ⟨r, List.mem_mergeSort.mp hr, rfl⟩
  · intro db check req d h
    cases hse : selectByEmail db req.email with
    | none =>
        rw [loginHandler_eq_none hse] at h
        exact absurd h (by simp)
    | some u =>
        rw [loginHandler_eq_found hse] at h
        by_cases hc : check u.password req.password
        · rw [if_pos hc] at h
          exact List.mem_map.mpr
            ⟨u, (selectByEmail_mem hse).1, (Resp.ok.inj h)⟩
        · rw [if_neg hc] at h
          exact absurd h (by simp)

/-- Witness for C5 on the sample store: the projection ignores the hash,
create responses do not depend on the hash function, reads and updates do
not depend on the stored hashes, and the login payload is the projection
of a stored row. -/
theorem responses_never_contain_password_witness :
    ({ exUser with password := "OTHER" } : User).toUserResponse =
        exUser.toUserResponse
    ∧ (createUserHandler exDb exHash eveReq 9).1 =
        (createUserHandler exDb (fun p => p) eveReq 9).1
    ∧ getUserByIdHandler (mapPasswords (fun p => p ++ "q") exDb) 1 =
        getUserByIdHandler exDb 1
    ∧ (updateUserHandler (mapPasswords (fun p => p ++ "q") exDb) 1 patch31 9).1 =
        (updateUserHandler exDb 1 patch31 9).1
    ∧ exUser.toUserResponse ∈ exDb.rows.map User.toUserResponse :=
  ⟨responses_never_contain_password.1 exUser "OTHER",
   responses_never_contain_password.2.1 exDb exHash (fun p => p) eveReq 9,
   responses_never_contain_password.2.2.2.1 (fun p => p ++ "q") exDb 1,
   responses_never_contain_password.2.2.2.2.1 (fun p => p ++ "q") exDb 1 patch31 9,
   responses_never_contain_password.2.2.2.2.2.2 exDb exCheck
     { email := "a@b.c", password := "pw" } exUser.toUserResponse (by decide)⟩

/-- Claim C3 counterexample: two creates race on the fresh email `x@y.z`
under the interleaving where both app-level existence pre-checks pass
before either INSERT; request A wins, and the losing request B receives
the 500 "Error creating user" raised by the storage unique constraint —
not the 409 ConflictError the claim requires for the loser. -/
theorem race_loser_gets_storage_error_not_conflict :
    (raceResult { rows := [], nextId := 1 } exHash raceReq raceReq 7 8
        [true, false, true, false]).a =
      TaskState.finished (Resp.created
        { id := 1, name := "Bob", email := "x@y.z", age := none
          isActive := true, createdAt := 7, updatedAt := 7 })
    ∧ (raceResult { rows := [], nextId := 1 } exHash raceReq raceReq 7 8
        [true, false, true, false]).b =
      TaskState.finished (Resp.serverError "Error creating user")
    ∧ conflictOutcome "x@y.z"
        (raceResult { rows := [], nextId := 1 } exHash raceReq raceReq 7 8
          [true, false, true, false]).b = false := by
  refine ⟨by decide, by decide, by decide⟩

/-- Claim C3 (amended): for two create requests racing on the same
not-yet-stored email, under every complete interleaving exactly one
request succeeds — the storage layer's atomic unique constraint admits at
most one INSERT — while the loser receives one of the two duplicate-email
failures: the 409 ConflictError when its app-level pre-check ran after the
winner's insert, or the 500 "Error creating user" storage error when both
pre-checks passed before either insert; the application resolves
duplicates with a separate read-then-write existence check, so the race
loser is not guaranteed the ConflictError. -/
theorem race_exactly_one_succeeds (db : Db) (hash : String → String)
    (reqA reqB : CreateUserRequest) (nowA nowB : Nat) (sched : List Bool)
    (hfresh : selectByEmail db reqA.email = none)
    (hAB : reqB.email = reqA.email)
    (hs : sched ∈ raceSchedules) :
    xor (createdOutcome (raceResult db hash reqA reqB nowA nowB sched).a)
        (createdOutcome (raceResult db hash reqA reqB nowA nowB sched).b) = true
    ∧ (createdOutcome (raceResult db hash reqA reqB nowA nowB sched).a = true →
        dupFailureOutcome reqB.email
          (raceResult db hash reqA reqB nowA nowB sched).b = true)
    ∧ (createdOutcome (raceResult db hash reqA reqB nowA nowB sched).b = true →
        dupFailureOutcome reqA.email
          (raceResult db hash reqA reqB nowA nowB sched).a = true) := by
  have hfresh' : db.rows.find? (fun r => r.email == reqA.email) = none := hfresh
  simp only [raceSchedules, List.mem_cons, List.mem_singleton,
    List.not_mem_nil, or_false] at hs
  rcases hs with rfl | rfl | rfl | rfl | rfl | rfl <;>
    simp [raceResult, runSched, stepCreate, insertUser, selectByEmail, hAB,
      hfresh', List.find?_append, List.find?_cons, createdOutcome,
      dupFailureOutcome]

/-- Witness for the amended C3: in the schedule where request A completes
before B starts, exactly one of the two racing requests succeeds. -/
theorem race_exactly_one_succeeds_witness :
    xor (createdOutcome (raceResult { rows := [], nextId := 1 } exHash raceReq
          raceReq 7 8 [true, true, false, false]).a)
        (createdOutcome (raceResult { rows := [], nextId := 1 } exHash raceReq
          raceReq 7 8 [true, true, false, false]).b) = true :=
  (race_exactly_one_succeeds { rows := [], nextId := 1 } exHash raceReq raceReq
    7 8 [true, true, false, false] (by decide) rfl (by decide)).1
